import Mathlib

/-!
# Verification of the ProjectSQS swap-analysis core

Shallow embedding of the quote-aggregation, decimal-scaling and reserve-resolution
modules of the ProjectSQS repository:

* `packages/mockSwapCore/src/mockData.ts` (token-decimal resolution, unit scaling),
* `packages/mockSwapCore/src/venueComparator.ts` (multi-venue quote comparison),
* the reserve-resolution module (Raydium AMM-v4 / CLMM / registry fallback chain).

Conventions of the embedding:

* JavaScript `number` values are modelled as exact rationals (`ℚ`); `bigint` values
  (SPL token vault balances) are modelled as `ℕ`.  The one explicitly lossy cast in
  the source, `Number(bigint)`, is modelled by `roundToDouble` (round to the nearest
  IEEE-754 binary64 value, ties to even), because vault balances routinely exceed
  2^53 where the cast loses information.
* Network I/O (HTTP fetches, RPC account reads) is abstracted into explicit outcome
  parameters (`FetchOutcome`, `TokenListFetch`, `RegOutcome`, ...): each constructor
  corresponds to one observable result of the call (thrown / parsed payload).  The
  control flow *after* the call follows the source line by line.
* JavaScript string truthiness is modelled by `optStrTruthy`: an absent field and the
  empty string are both falsy.
* Fallible code returns `Except`; code that cannot throw is a total function.
-/

namespace ProjectSQS

/-- JS truthiness of an optional string field: `undefined` and `""` are falsy. -/
def optStrTruthy : Option String → Bool
  | none => false
  | some s => s != ""

/-! ## mockData.ts : common tokens and the static decimals table -/

def COMMON_TOKENS_SOL : String := "So11111111111111111111111111111111111111112"

def COMMON_TOKENS_USDC : String := "EPjFWdd5AufqSSqeM2qN1xzybapC8G4wEGGkZwyTDt1v"

def COMMON_TOKENS_USDT : String := "Es9vMFrzaCERmJfrF4H2FYD4KCoNkY11McCe8BenwNYB"

def COMMON_TOKENS_IMG : String := "znv3FZt2HFAvzYf5LxzVyryh3mBXWuTRRng25gEZAjh"

def COMMON_TOKENS_BONK : String := "DezXAZ8z7PnrnRJjz3wXBoRgixCa6xjnB7YaB1pPB263"

def COMMON_TOKENS_JTO : String := "jtojtomepa8beP8AuQc6eXt5FriJwfFMwQx2v2f9mCL"

/-- The static `TOKEN_DECIMALS` record of `mockData.ts`, as a partial map. -/
def TOKEN_DECIMALS (mint : String) : Option ℕ :=
  if mint = COMMON_TOKENS_SOL then some 9
  else if mint = COMMON_TOKENS_USDC then some 6
  else if mint = COMMON_TOKENS_USDT then some 6
  else if mint = COMMON_TOKENS_BONK then some 5
  else if mint = COMMON_TOKENS_IMG then some 9
  else if mint = COMMON_TOKENS_JTO then some 9
  else none

/-- The module-level mutable state of `mockData.ts`: the `tokenDecimalsCache` map and
the `tokenListLoaded` flag. -/
structure TokenState where
  tokenDecimalsCache : String → Option ℕ
  tokenListLoaded : Bool

/-- State at process start: empty cache, list not loaded. -/
def initialTokenState : TokenState :=
  { tokenDecimalsCache := fun _ => none, tokenListLoaded := false }

/-- Observable outcome of the `fetch('https://token.jup.ag/all')` call inside
`ensureTokenListLoaded`: the fetch threw / returned a non-ok status (caught by the
`catch`), the parsed JSON was not an array, or it was an array whose items carrying
both an `address` string and a numeric `decimals` field are listed here. -/
inductive TokenListFetch
  | failed (msg : String)
  | nonArray
  | array (entries : List (String × ℕ))

/-- Model of `ensureTokenListLoaded` from `mockData.ts`.  On a successful array response every
entry with a truthy `address` is written into the cache (later duplicates win, as in
the JS `for` loop) and the loaded flag is set; on failure or a non-array response the
state is left unchanged (the flag stays `false`, so a later call retries). -/
def ensureTokenListLoaded (st : TokenState) (net : TokenListFetch) : TokenState :=
  if st.tokenListLoaded then st
  else
    match net with
    | .failed _ => st
    | .nonArray => st
    | .array entries =>
        { tokenDecimalsCache :=
            entries.foldl
              (fun cache e =>
                if e.1 != "" then fun m => if m = e.1 then some e.2 else cache m
                else cache)
              st.tokenDecimalsCache,
          tokenListLoaded := true }

/-- Model of `resolveTokenDecimals` from `mockData.ts`.  Returns the resolved decimals, the
updated module state, and whether the remote catalog fetch was issued (it is issued
exactly when the static table and the cache both miss while the list is not yet
loaded).  The function is total: no code path raises. -/
def resolveTokenDecimals (mint : String) (st : TokenState) (net : TokenListFetch) :
    ℕ × TokenState × Bool :=
  match TOKEN_DECIMALS mint with
  | some d => (d, st, false)
  | none =>
    match st.tokenDecimalsCache mint with
    | some d => (d, st, false)
    | none =>
      (((ensureTokenListLoaded st net).tokenDecimalsCache mint).getD 9,
        ensureTokenListLoaded st net, !st.tokenListLoaded)

/-- Whether the catalog response contains an entry that would populate the cache for
`mint` (an entry with address `mint`, where the address is truthy). -/
def catalogHas (net : TokenListFetch) (mint : String) : Bool :=
  match net with
  | .array entries => entries.any fun e => e.1 = mint && e.1 != ""
  | _ => false

/-- Model of `toBaseUnits` from `mockData.ts`: multiply by `10^decimals` and round to the
nearest integer (`Math.round`, i.e. `⌊x + 1/2⌋`), returned as a decimal string of
that integer (modelled as the integer itself). -/
def toBaseUnits (amountHuman : ℚ) (decimals : ℕ) : ℤ :=
  round (amountHuman * 10 ^ decimals)

/-- Model of `fromBaseUnits` from `mockData.ts`: parse the base-unit amount and divide by
`10^decimals` (an unparseable amount is treated as `0` upstream; a parsed amount is
an integer, which is what this model takes). -/
def fromBaseUnits (amountBase : ℤ) (decimals : ℕ) : ℚ :=
  (amountBase : ℚ) / 10 ^ decimals

/-- The state transition of one `resolveTokenDecimals` call. -/
def resolveState (mint : String) (st : TokenState) (net : TokenListFetch) : TokenState :=
  (resolveTokenDecimals mint st net).2.1

/-- Run a sequence of `resolveTokenDecimals` calls (mint and network outcome per
call), threading the module state. -/
def runResolveCalls (st : TokenState) : List (String × TokenListFetch) → TokenState
  | [] => st
  | c :: cs => runResolveCalls (resolveState c.1 st c.2) cs

/-- Invariant of the module state: cache entries exist only once the token list has
been marked loaded (the only writes to the cache happen in the branch of
`ensureTokenListLoaded` that also sets the flag). -/
def cacheInv (st : TokenState) : Prop :=
  ∀ m v, st.tokenDecimalsCache m = some v → st.tokenListLoaded = true

/-! ## venueComparator.ts : data model -/

/-- The four configured venues (`VenueName`). -/
inductive VenueName
  | jupiter
  | raydium
  | orca
  | meteora
deriving DecidableEq, Repr

/-- Structure `VenueQuote` of `venueComparator.ts`.  Optional fields are `Option`s; amounts
are human-readable numbers. -/
structure VenueQuote where
  venue : VenueName
  inAmount : ℚ
  outAmount : ℚ
  priceImpact : Option ℚ := none
  fee : Option ℚ := none
  route : Option (List String) := none
  poolId : Option String := none
  efficiency : Option ℚ := none
  error : Option String := none
deriving DecidableEq, Repr

/-- Structure `ArbitrageOpportunity` of `venueComparator.ts`. -/
structure ArbitrageOpportunity where
  buyVenue : VenueName
  sellVenue : VenueName
  buyPrice : ℚ
  sellPrice : ℚ
  spread : ℚ
  spreadPercent : ℚ
  profitPotential : ℚ
deriving DecidableEq, Repr

/-- Structure `VenueComparison` of `venueComparator.ts`. -/
structure VenueComparison where
  inputMint : String
  outputMint : String
  amount : ℚ
  timestamp : ℤ
  quotes : List VenueQuote
  bestQuote : VenueQuote
  arbitrageOpportunities : Option (List ArbitrageOpportunity)

/-- Observable outcome of one venue's HTTP quote request, as seen by the shared
try/catch skeleton of the four `fetch*VenueQuote` functions:

* `thrown msg` — the fetch or JSON handling threw, or a non-ok status raised
  (`Jupiter API error ...` etc.); caught by the `catch`, `msg` is the error message;
* `parsed` — the response was parsed; `inAmount`/`outAmount` are the amounts after
  `fromBaseUnits` (missing fields default to `0`), and the venue-specific optional
  fields (`priceImpact`, `fee`, `route`, `poolId`) are whatever the venue's parser
  extracted (venues that never set a field leave it `none`). -/
inductive FetchOutcome
  | thrown (msg : String)
  | parsed (inAmount outAmount : ℚ) (priceImpact fee : Option ℚ)
      (route : Option (List String)) (poolId : Option String)

/-- A fetch outcome that the source turns into a tombstone: a thrown error, or a
parsed response with zero (or missing, hence zero) output or input amount. -/
def outcomeFailed : FetchOutcome → Prop
  | .thrown _ => True
  | .parsed ia oa _ _ _ _ => oa = 0 ∨ ia = 0

/-- Common skeleton of `fetchJupiterVenueQuote` / `fetchRaydiumVenueQuote` /
`fetchOrcaVenueQuote` / `fetchMeteoraVenueQuote`: on a caught error, return a
tombstone carrying the error message and zero amounts; on a parsed response with
falsy (`!outAmount || !inAmount`) amounts, return the `No quote available`
tombstone; otherwise return the parsed quote (with `efficiency` and `error`
unset). -/
def fetchVenueQuote (v : VenueName) (o : FetchOutcome) : VenueQuote :=
  match o with
  | .thrown msg =>
      { venue := v, inAmount := 0, outAmount := 0, error := some msg }
  | .parsed ia oa pi fee route poolId =>
      if oa = 0 ∨ ia = 0 then
        { venue := v, inAmount := 0, outAmount := 0, error := some "No quote available" }
      else
        { venue := v, inAmount := ia, outAmount := oa, priceImpact := pi, fee := fee,
          route := route, poolId := poolId }

/-- Model of `fetchAllVenueQuotes`: the four venue calls settle independently (`Promise.all`
over functions that never reject) and the results are returned in the fixed order
jupiter, raydium, orca, meteora. -/
def fetchAllVenueQuotes (o₁ o₂ o₃ o₄ : FetchOutcome) : List VenueQuote :=
  [fetchVenueQuote .jupiter o₁, fetchVenueQuote .raydium o₂,
   fetchVenueQuote .orca o₃, fetchVenueQuote .meteora o₄]

/-- The validity filter of `findBestQuote`: `!q.error && q.outAmount > 0`
(JS truthiness: an absent or empty `error` string is falsy). -/
def isValidQuote (q : VenueQuote) : Bool :=
  !optStrTruthy q.error && decide (0 < q.outAmount)

/-- The `reduce` callback of `findBestQuote`:
`current.outAmount > best.outAmount ? current : best`. -/
def bestStep (best current : VenueQuote) : VenueQuote :=
  if current.outAmount > best.outAmount then current else best

/-- Model of `findBestQuote` from `venueComparator.ts`: among the valid quotes, keep the one
with the strictly greater `outAmount` (`reduce` without seed, so the first valid
quote is the initial accumulator); if there is no valid quote, fall back to
`quotes[0]`, or to a synthetic jupiter tombstone when the list is empty. -/
def findBestQuote (quotes : List VenueQuote) : VenueQuote :=
  let validQuotes := quotes.filter isValidQuote
  match validQuotes with
  | [] =>
    match quotes with
    | [] => { venue := .jupiter, inAmount := 0, outAmount := 0, error := some "No valid quotes" }
    | q :: _ => q
  | v :: vs => vs.foldl bestStep v

/-- The per-quote annotation performed by `calculateQuoteEfficiencies`. -/
def annotEff (bestQuote : VenueQuote) (q : VenueQuote) : VenueQuote :=
  { q with efficiency := some (if 0 < q.outAmount then q.outAmount / bestQuote.outAmount * 100 else 0) }

/-- Model of `calculateQuoteEfficiencies` from `venueComparator.ts`: unchanged when the best
quote has zero output, otherwise every quote is annotated with its efficiency
relative to the best quote. -/
def calculateQuoteEfficiencies (quotes : List VenueQuote) (bestQuote : VenueQuote) :
    List VenueQuote :=
  if bestQuote.outAmount = 0 then quotes
  else quotes.map (annotEff bestQuote)

/-- The validity filter of `findArbitrageOpportunities`:
`!q.error && q.outAmount > 0 && q.inAmount > 0`. -/
def isValidArbQuote (q : VenueQuote) : Bool :=
  !optStrTruthy q.error && decide (0 < q.outAmount) && decide (0 < q.inAmount)

/-- Body of the inner loop of `findArbitrageOpportunities` for the ordered pair
`(quote1, quote2)` (where `quote1` occurs before `quote2` in the valid list):
produce an opportunity exactly when the spread relative to the lower realized unit
price exceeds 0.5 %. -/
def mkArbitrageOpportunity (quote1 quote2 : VenueQuote) : Option ArbitrageOpportunity :=
  let price1 := quote1.outAmount / quote1.inAmount
  let price2 := quote2.outAmount / quote2.inAmount
  let spread := |price1 - price2|
  let spreadPercent := spread / min price1 price2 * 100
  if spreadPercent > 0.5 then
    some
      { buyVenue := if price1 > price2 then quote2.venue else quote1.venue,
        sellVenue := if price1 > price2 then quote1.venue else quote2.venue,
        buyPrice := min price1 price2,
        sellPrice := max price1 price2,
        spread := spread,
        spreadPercent := spreadPercent,
        profitPotential := (max price1 price2 - min price1 price2) * quote1.inAmount }
  else none

/-- All ordered pairs `(l[i], l[j])` with `i < j`, in the traversal order of the
source's nested `for` loops. -/
def pairsFirstLater {α : Type} : List α → List (α × α)
  | [] => []
  | x :: xs => xs.map (fun y => (x, y)) ++ pairsFirstLater xs

/-- Descending order on opportunities by `spreadPercent` — the comparator
`(a, b) => b.spreadPercent - a.spreadPercent` passed to `Array.prototype.sort`. -/
def arbDesc (a b : ArbitrageOpportunity) : Prop :=
  b.spreadPercent ≤ a.spreadPercent

instance : DecidableRel arbDesc := fun a b =>
  inferInstanceAs (Decidable (b.spreadPercent ≤ a.spreadPercent))

instance : IsTotal ArbitrageOpportunity arbDesc :=
  ⟨fun a b => (le_total b.spreadPercent a.spreadPercent).imp id id⟩

instance : IsTrans ArbitrageOpportunity arbDesc :=
  ⟨fun _ _ _ hab hbc => le_trans hbc hab⟩

/-- Model of `findArbitrageOpportunities` from `venueComparator.ts`: filter to valid quotes,
bail out below two of them, build one candidate per ordered pair `i < j`, keep those
above the 0.5 % threshold, and stable-sort descending by `spreadPercent`
(`Array.prototype.sort` is a stable sort; modelled by insertion sort on `arbDesc`). -/
def findArbitrageOpportunities (quotes : List VenueQuote) : List ArbitrageOpportunity :=
  let validQuotes := quotes.filter isValidArbQuote
  if validQuotes.length < 2 then []
  else
    List.insertionSort arbDesc
      ((pairsFirstLater validQuotes).filterMap fun p => mkArbitrageOpportunity p.1 p.2)

/-- Model of `compareVenues` from `venueComparator.ts`.  `now` abstracts `Date.now()`. -/
def compareVenues (inputMint outputMint : String) (amount : ℚ)
    (o₁ o₂ o₃ o₄ : FetchOutcome) (now : ℤ) : VenueComparison :=
  let quotes := fetchAllVenueQuotes o₁ o₂ o₃ o₄
  let bestQuote := findBestQuote quotes
  let quotesWithEfficiency := calculateQuoteEfficiencies quotes bestQuote
  let arbitrageOpportunities := findArbitrageOpportunities quotesWithEfficiency
  { inputMint := inputMint,
    outputMint := outputMint,
    amount := amount,
    timestamp := now,
    quotes := quotesWithEfficiency,
    bestQuote := bestQuote,
    arbitrageOpportunities :=
      if arbitrageOpportunities.length > 0 then some arbitrageOpportunities else none }

/-- Forget the `efficiency` annotation of a quote. -/
def eraseEfficiency (q : VenueQuote) : VenueQuote :=
  { q with efficiency := none }

/-! ## Reserve resolution module (resolve_reserves)

The module fetches on-chain reserve data.  Network and binary-layout decoding are
abstracted into outcome parameters; the fallback chain (AMM v4 layout → CLMM →
registry by id → registry by mint pair) follows the source. -/

/-- Fuel-driven helper: the number of halvings needed to bring `n` below `2^53`
(i.e. `max 0 (⌊log₂ n⌋ - 52)`, the number of low bits a binary64 significand cannot
hold).  The fuel bound 1100 covers every value below `2^1024`, the binary64 overflow
threshold. -/
def dropBitsAux : ℕ → ℕ → ℕ
  | 0, _ => 0
  | fuel + 1, n => if n < 2 ^ 53 then 0 else dropBitsAux fuel (n / 2) + 1

/-- Number of significand bits lost when representing `n` as a binary64 value. -/
def dropBits (n : ℕ) : ℕ :=
  dropBitsAux 1100 n

/-- The JS cast `Number(bigint)`: round a natural number to the nearest IEEE-754
binary64 value (53-bit significand, ties to even).  Exact below `2^53`; faithful for
every value below `2^1024` (far beyond the `u64` range of SPL vault balances). -/
def roundToDouble (n : ℕ) : ℕ :=
  if n < 2 ^ 53 then n
  else
    let k := dropBits n
    let q := n / 2 ^ k
    let r := n % 2 ^ k
    if 2 ^ k < 2 * r ∨ (2 * r = 2 ^ k ∧ q % 2 = 1) then (q + 1) * 2 ^ k
    else q * 2 ^ k

/-- Structure `VaultInfo` of the reserve-resolution module: vault address, raw balance
(`bigint`, modelled as `ℕ`) and mint. -/
structure VaultInfo where
  address : String
  amount : ℕ
  mint : String
deriving DecidableEq, Repr

/-- The three pool kinds a snapshot can come from. -/
inductive PoolType
  | ammV4
  | clmm
  | registry
deriving DecidableEq, Repr

/-- The `fees` component of `PoolReserves`. -/
structure PoolFees where
  tradeFeeRate : ℚ
  protocolFeeRate : Option ℚ := none
deriving DecidableEq, Repr

/-- The `clmmTicks` component of `PoolReserves`. -/
structure ClmmTicks where
  currentPrice : ℚ
  nearestLowerTick : ℤ
  nearestUpperTick : ℤ
  lowerPrice : ℚ
  upperPrice : ℚ
  liquidityNet : String
deriving DecidableEq, Repr

/-- Structure `PoolReserves` (the opaque `rawState : any` passthrough is not modelled). -/
structure PoolReserves where
  poolType : PoolType
  vaultA : VaultInfo
  vaultB : VaultInfo
  midPrice : ℚ
  depth : ℕ
  lpSupply : Option ℕ := none
  fees : Option PoolFees := none
  clmmTicks : Option ClmmTicks := none
deriving DecidableEq, Repr

/-- Error outcomes of `getRaydiumPoolReserves`, named after the spec's taxonomy:
`accountNotFound` is the thrown `Pool account not found on chain`
(`AccountNotFoundError`), `notFound` is the thrown
`Pool not found in Raydium registry` (`NotFoundError`), and `otherFail` is any other
uncaught error (a propagated registry network error or vault-read failure inside
`parseRegistryPool`). -/
inductive ResolveErr
  | accountNotFound
  | notFound
  | otherFail (msg : String)
deriving DecidableEq, Repr

/-- Model of `tickIndexToPrice`: `Math.pow(1.0001, tick) * Math.pow(10, decimalsA - decimalsB)`. -/
def tickIndexToPrice (tick : ℤ) (decimalsA decimalsB : ℕ) : ℚ :=
  (1.0001 : ℚ) ^ tick * (10 : ℚ) ^ ((decimalsA : ℤ) - (decimalsB : ℤ))

/-- Data available when the whole AMM-v4 attempt succeeds: the decoded layout fields
together with both vault accounts and the LP mint supply (a failure of the layout
decode, of either vault read, or of the mint read is caught locally and fails the
whole attempt — constructor `fail`). -/
structure AmmV4Data where
  baseVault : String
  quoteVault : String
  vaMint : String
  vaAmount : ℕ
  vbMint : String
  vbAmount : ℕ
  lpSupply : ℕ
  tradeFeeNumerator : ℕ
  tradeFeeDenominator : ℕ
  swapFeeNumerator : ℕ
  swapFeeDenominator : ℕ

/-- Outcome of the AMM-v4 decode attempt (try block 1 of `getRaydiumPoolReserves`). -/
inductive AmmV4Outcome
  | fail (msg : String)
  | ok (d : AmmV4Data)

/-- Data available when the whole CLMM attempt succeeds (pool keys, compute info and
both vault accounts; any failure inside the try block is caught — constructor
`fail`). -/
structure ClmmData where
  vaultAAddr : String
  vaultBAddr : String
  vaMint : String
  vaAmount : ℕ
  vbMint : String
  vbAmount : ℕ
  currentPrice : ℚ
  tickCurrent : ℤ
  tickSpacing : ℤ
  mintADecimals : ℕ
  mintBDecimals : ℕ
  liquidity : ℕ
  tradeFeeRate : ℕ
  protocolFeeRate : ℕ

/-- Outcome of the CLMM decode attempt (try block 2 of `getRaydiumPoolReserves`). -/
inductive ClmmOutcome
  | fail (msg : String)
  | ok (d : ClmmData)

/-- A pool record returned by the Raydium registry API (only the vault-address
fields the source reads). -/
structure RegPool where
  vaultA : Option String := none
  baseVault : Option String := none
  vaultB : Option String := none
  quoteVault : Option String := none

/-- Outcome of one registry HTTP query: a network/HTTP error thrown by `axios`
(which propagates uncaught), or a response whose `data?.data?.[0]` is the given
optional pool. -/
inductive RegOutcome
  | netFail (msg : String)
  | ok (pool : Option RegPool)

/-- Outcome of one `getAccount` vault read inside `parseRegistryPool` (this one is
*not* wrapped in `safeGetAccount`, so a failure propagates). -/
inductive VaultFetch
  | fail (msg : String)
  | ok (amount : ℕ) (mint : String)

/-- JS `a || b` on two optional string fields. -/
def firstTruthy (a b : Option String) : Option String :=
  if optStrTruthy a then a else if optStrTruthy b then b else none

/-- The AMM-v4 success branch of `getRaydiumPoolReserves`: `midPrice` and `depth`
are computed from the vault balances *after* the `Number(bigint)` casts. -/
def buildAmmV4 (d : AmmV4Data) : PoolReserves :=
  { poolType := .ammV4,
    vaultA := { address := d.baseVault, amount := d.vaAmount, mint := d.vaMint },
    vaultB := { address := d.quoteVault, amount := d.vbAmount, mint := d.vbMint },
    midPrice := (roundToDouble d.vbAmount : ℚ) / (roundToDouble d.vaAmount : ℚ),
    depth := min (roundToDouble d.vaAmount) (roundToDouble d.vbAmount),
    lpSupply := some d.lpSupply,
    fees := some
      { tradeFeeRate := (d.tradeFeeNumerator : ℚ) / (d.tradeFeeDenominator : ℚ),
        protocolFeeRate := some ((d.swapFeeNumerator : ℚ) / (d.swapFeeDenominator : ℚ)) } }

/-- The CLMM success branch of `getRaydiumPoolReserves`. -/
def buildClmm (d : ClmmData) : PoolReserves :=
  { poolType := .clmm,
    vaultA := { address := d.vaultAAddr, amount := d.vaAmount, mint := d.vaMint },
    vaultB := { address := d.vaultBAddr, amount := d.vbAmount, mint := d.vbMint },
    midPrice := d.currentPrice,
    depth := min (roundToDouble d.vaAmount) (roundToDouble d.vbAmount),
    fees := some
      { tradeFeeRate := (d.tradeFeeRate : ℚ) / 1000000,
        protocolFeeRate := some ((d.protocolFeeRate : ℚ) / 1000000) },
    clmmTicks := some
      { currentPrice := d.currentPrice,
        nearestLowerTick := d.tickCurrent - d.tickSpacing,
        nearestUpperTick := d.tickCurrent + d.tickSpacing,
        lowerPrice := tickIndexToPrice (d.tickCurrent - d.tickSpacing) d.mintADecimals d.mintBDecimals,
        upperPrice := tickIndexToPrice (d.tickCurrent + d.tickSpacing) d.mintADecimals d.mintBDecimals,
        liquidityNet := toString d.liquidity } }

/-- Model of `parseRegistryPool`: resolve the two vault addresses (`pool.vaultA ||
pool.baseVault`, `pool.vaultB || pool.quoteVault`; an untruthy pair makes the
`PublicKey` constructor throw), read both vault accounts with the unguarded
`getAccount`, and build a `registry` snapshot. -/
def parseRegistryPool (pool : RegPool) (vaFetch vbFetch : VaultFetch) :
    Except ResolveErr PoolReserves :=
  match firstTruthy pool.vaultA pool.baseVault, firstTruthy pool.vaultB pool.quoteVault with
  | none, _ => .error (.otherFail "invalid vault address")
  | _, none => .error (.otherFail "invalid vault address")
  | some addrA, some addrB =>
    match vaFetch, vbFetch with
    | .fail msg, _ => .error (.otherFail msg)
    | _, .fail msg => .error (.otherFail msg)
    | .ok vaAmount vaMint, .ok vbAmount vbMint =>
      .ok
        { poolType := .registry,
          vaultA := { address := addrA, amount := vaAmount, mint := vaMint },
          vaultB := { address := addrB, amount := vbAmount, mint := vbMint },
          midPrice := (roundToDouble vbAmount : ℚ) / (roundToDouble vaAmount : ℚ),
          depth := min (roundToDouble vaAmount) (roundToDouble vbAmount) }

/-- Model of `getRaydiumPoolReservesRegistry`: query the registry by pool id; on an empty
result retry by mint pair when both mints are truthy; if that is also empty, fail
with `NotFoundError` (`Pool not found in Raydium registry`). -/
def getRaydiumPoolReservesRegistry (mintA mintB : Option String)
    (regById regByMints : RegOutcome) (vaFetch vbFetch : VaultFetch) :
    Except ResolveErr PoolReserves :=
  match regById with
  | .netFail msg => .error (.otherFail msg)
  | .ok (some pool) => parseRegistryPool pool vaFetch vbFetch
  | .ok none =>
    if optStrTruthy mintA && optStrTruthy mintB then
      match regByMints with
      | .netFail msg => .error (.otherFail msg)
      | .ok (some pool) => parseRegistryPool pool vaFetch vbFetch
      | .ok none => .error .notFound
    else .error .notFound

/-- The abstracted I/O environment of one `getRaydiumPoolReserves` call. -/
structure ResolveEnv where
  accountExists : Bool
  ammV4 : AmmV4Outcome
  clmm : ClmmOutcome
  regById : RegOutcome
  regByMints : RegOutcome
  regVaultA : VaultFetch
  regVaultB : VaultFetch

/-- Model of `getRaydiumPoolReserves`: fail fatally when the pool account is absent
on-ledger; otherwise try the AMM-v4 layout, then the CLMM path (which requires both
mints and fails immediately without them), then fall back to the registry. -/
def getRaydiumPoolReserves (mintA mintB : Option String) (env : ResolveEnv) :
    Except ResolveErr PoolReserves :=
  if env.accountExists = false then .error .accountNotFound
  else
    match env.ammV4 with
    | .ok d => .ok (buildAmmV4 d)
    | .fail _ =>
      match
        (if optStrTruthy mintA && optStrTruthy mintB then env.clmm
         else .fail "CLMM requires mint addresses") with
      | .ok d => .ok (buildClmm d)
      | .fail _ =>
        getRaydiumPoolReservesRegistry mintA mintB env.regById env.regByMints
          env.regVaultA env.regVaultB

/-! ## Supporting lemmas : token-decimal state machine -/

/-- Once the token list is loaded, `ensureTokenListLoaded` is the identity. -/
theorem ensureTokenListLoaded_of_loaded (st : TokenState) (net : TokenListFetch)
    (h : st.tokenListLoaded = true) : ensureTokenListLoaded st net = st := by
  unfold ensureTokenListLoaded
  simp [h]

/-- The cache-population fold of `ensureTokenListLoaded` does not change the lookup
for a mint that appears in no (truthy-address) entry. -/
theorem foldl_cache_set_miss (mint : String) (entries : List (String × ℕ))
    (h : ∀ e ∈ entries, (decide (e.1 = mint) && e.1 != "") = false)
    (cache : String → Option ℕ) :
    entries.foldl
      (fun cache e =>
        if e.1 != "" then fun m => if m = e.1 then some e.2 else cache m else cache)
      cache mint = cache mint := by
  induction entries generalizing cache with
  | nil => rfl
  | cons e es ih =>
    have he := h e (by simp)
    have h' : ∀ x ∈ es, (decide (x.1 = mint) && x.1 != "") = false :=
      fun x hx => h x (by simp [hx])
    simp only [List.foldl_cons]
    by_cases hne : (e.1 != "") = true
    · rw [if_pos hne, ih h']
      have hm : ¬ mint = e.1 := by
        intro heq
        rw [hne, Bool.and_true, decide_eq_false_iff_not] at he
        exact he heq.symm
      simp [hm]
    · rw [if_neg hne]
      exact ih h' cache

/-- If the catalog response has no entry for `mint`, the catalog load leaves the
cache lookup for `mint` unchanged. -/
theorem ensureTokenListLoaded_cache_miss (st : TokenState) (net : TokenListFetch)
    (mint : String) (h : catalogHas net mint = false) :
    (ensureTokenListLoaded st net).tokenDecimalsCache mint = st.tokenDecimalsCache mint := by
  unfold ensureTokenListLoaded
  split
  · rfl
  · match net with
    | .failed _ => rfl
    | .nonArray => rfl
    | .array entries =>
      simp only [catalogHas, List.any_eq_false] at h
      exact foldl_cache_set_miss mint entries
        (fun e he => by simpa using h e he) st.tokenDecimalsCache

/-- A `resolveTokenDecimals` call made while the token list is loaded does not
change the module state. -/
theorem resolveState_of_loaded (m : String) (st : TokenState) (net : TokenListFetch)
    (h : st.tokenListLoaded = true) : resolveState m st net = st := by
  unfold resolveState resolveTokenDecimals
  split
  · rfl
  · split
    · rfl
    · simp [ensureTokenListLoaded_of_loaded st net h]

/-- Running any sequence of calls from a loaded state leaves the state unchanged. -/
theorem runResolveCalls_of_loaded (st : TokenState) (calls : List (String × TokenListFetch))
    (h : st.tokenListLoaded = true) : runResolveCalls st calls = st := by
  induction calls with
  | nil => rfl
  | cons c cs ih =>
    unfold runResolveCalls
    rw [resolveState_of_loaded c.1 st c.2 h]
    exact ih

/-- The load step `ensureTokenListLoaded` preserves the cache invariant. -/
theorem cacheInv_ensure (st : TokenState) (net : TokenListFetch) (hinv : cacheInv st) :
    cacheInv (ensureTokenListLoaded st net) := by
  unfold ensureTokenListLoaded
  split
  · exact hinv
  · match net with
    | .failed _ => exact hinv
    | .nonArray => exact hinv
    | .array entries => intro m v _; rfl

/-- Every `resolveTokenDecimals` call either keeps the state or performs the
catalog load. -/
theorem resolveState_cases (m : String) (st : TokenState) (net : TokenListFetch) :
    resolveState m st net = st ∨ resolveState m st net = ensureTokenListLoaded st net := by
  unfold resolveState resolveTokenDecimals
  split
  · exact Or.inl rfl
  · split
    · exact Or.inl rfl
    · exact Or.inr rfl

/-! ## Claim theorems : mockData.ts -/

/-- Claim C6: For all non-negative integers `x` and all scales `d ≤ 18`,
`toBaseUnits (fromBaseUnits x d) d` equals `x` to within one unit of rounding error
(in the exact-rational model of JS numbers the round trip is in fact exact, so the
one-unit bound holds with room to spare). -/
theorem toBaseUnits_fromBaseUnits_roundtrip (x : ℕ) (d : ℕ) (hd : d ≤ 18) :
    |toBaseUnits (fromBaseUnits (x : ℤ) d) d - (x : ℤ)| ≤ 1 := by
  have h10 : ((10 : ℚ) ^ d) ≠ 0 := by positivity
  unfold toBaseUnits fromBaseUnits
  rw [div_mul_cancel₀ _ h10, round_intCast]
  simp

/-- Witness for C6 at `x = 12345`, `d = 6`. -/
theorem toBaseUnits_fromBaseUnits_roundtrip_witness :
    |toBaseUnits (fromBaseUnits ((12345 : ℕ) : ℤ) 6) 6 - ((12345 : ℕ) : ℤ)| ≤ 1 :=
  toBaseUnits_fromBaseUnits_roundtrip 12345 6 (by decide)

/-- Claim C7: An identifier present in the static `TOKEN_DECIMALS` table resolves to
the table value with no catalog fetch and no state change; an identifier absent from
the table, the cache and the catalog resolves to the fixed default `9`.  (The
operation is a total function of the fetch outcome — including the `failed` outcome
of a throwing fetch — so no input raises.) -/
theorem resolveTokenDecimals_spec (mint : String) (st : TokenState) (net : TokenListFetch) :
    (∀ d, TOKEN_DECIMALS mint = some d → resolveTokenDecimals mint st net = (d, st, false)) ∧
    (TOKEN_DECIMALS mint = none → st.tokenDecimalsCache mint = none →
      catalogHas net mint = false → (resolveTokenDecimals mint st net).1 = 9) := by
  constructor
  · intro d hd
    unfold resolveTokenDecimals
    rw [hd]
  · intro htab hcache hcat
    unfold resolveTokenDecimals
    rw [htab, hcache, ensureTokenListLoaded_cache_miss st net mint hcat, hcache]
    rfl

/-- Witness for C7: `SOL` resolves from the static table even when the network is
down, and a fully unknown mint resolves to `9`. -/
theorem resolveTokenDecimals_spec_witness :
    resolveTokenDecimals COMMON_TOKENS_SOL initialTokenState (.failed "down") =
      (9, initialTokenState, false) ∧
    (resolveTokenDecimals "unknownMint" initialTokenState (.array [("otherMint", 3)])).1 = 9 :=
  ⟨(resolveTokenDecimals_spec COMMON_TOKENS_SOL initialTokenState (.failed "down")).1 9 rfl,
   (resolveTokenDecimals_spec "unknownMint" initialTokenState (.array [("otherMint", 3)])).2
     rfl rfl (by decide)⟩

/-- Claim C8, counterexample: The claim "once a DecimalScale for an identifier has
been stored in the process-wide cache, every later `resolveTokenDecimals` call for
that identifier returns that same value" fails as stated: resolving an unknown mint
against a catalog that lists USDC with 7 decimals stores `7` in the cache for the
USDC identifier, yet a later call for USDC returns the static-table value `6`,
because the static table is consulted before the cache. -/
theorem resolveTokenDecimals_static_shadow_cex :
    ((resolveTokenDecimals "unknownMint" initialTokenState
        (.array [(COMMON_TOKENS_USDC, 7)])).2.1).tokenDecimalsCache COMMON_TOKENS_USDC =
      some 7 ∧
    (resolveTokenDecimals COMMON_TOKENS_USDC
        ((resolveTokenDecimals "unknownMint" initialTokenState
          (.array [(COMMON_TOKENS_USDC, 7)])).2.1) (.array [])).1 = 6 ∧
    (6 : ℕ) ≠ 7 :=
  ⟨rfl, rfl, by decide⟩

/-- Claim C8, amended: Once a DecimalScale for an identifier has been stored in the
process-wide cache, no later call overwrites or invalidates it — the cache entry is
immutable for the rest of the run — and every later call for that identifier returns
that same value provided the identifier is not in the static known-asset table
(whose value always takes precedence over the cache).  Stated for every state
satisfying the module's cache invariant, which holds initially and is preserved by
every call. -/
theorem resolveTokenDecimals_cache_immutable :
    cacheInv initialTokenState ∧
    (∀ st m net, cacheInv st → cacheInv (resolveState m st net)) ∧
    (∀ st m v, cacheInv st → st.tokenDecimalsCache m = some v →
      ∀ calls : List (String × TokenListFetch),
        (runResolveCalls st calls).tokenDecimalsCache m = some v ∧
        (TOKEN_DECIMALS m = none → ∀ net,
          (resolveTokenDecimals m (runResolveCalls st calls) net).1 = v)) := by
  refine ⟨fun m v h => by simp [initialTokenState] at h, ?_, ?_⟩
  · intro st m net hinv
    rcases resolveState_cases m st net with h | h
    · rw [h]; exact hinv
    · rw [h]; exact cacheInv_ensure st net hinv
  · intro st m v hinv hm calls
    have hl : st.tokenListLoaded = true := hinv m v hm
    rw [runResolveCalls_of_loaded st calls hl]
    refine ⟨hm, fun htab net => ?_⟩
    unfold resolveTokenDecimals
    rw [htab, hm]

/-- Witness for C8 (amended): after a real catalog load caches `mintX ↦ 7`, a
further call sequence leaves the entry intact and a later lookup returns `7`. -/
theorem resolveTokenDecimals_cache_immutable_witness :
    ((runResolveCalls
        ((resolveTokenDecimals "unknownMint" initialTokenState
          (.array [("mintX", 7)])).2.1)
        [("otherMint", .array [("mintX", 3)])]).tokenDecimalsCache "mintX" = some 7) ∧
    (resolveTokenDecimals "mintX"
        (runResolveCalls
          ((resolveTokenDecimals "unknownMint" initialTokenState
            (.array [("mintX", 7)])).2.1)
          [("otherMint", .array [("mintX", 3)])]) (.failed "down")).1 = 7 := by
  have h := resolveTokenDecimals_cache_immutable.2.2
    ((resolveTokenDecimals "unknownMint" initialTokenState (.array [("mintX", 7)])).2.1)
    "mintX" 7 (fun m v _ => rfl) rfl [("otherMint", .array [("mintX", 3)])]
  exact ⟨h.1, h.2 rfl (.failed "down")⟩

/-! ## Supporting lemmas : findBestQuote via List.argmax -/

/-- The `reduce` of `findBestQuote` agrees with Mathlib's first-maximum fold. -/
theorem foldl_bestStep_eq_argAux (vs : List VenueQuote) (v : VenueQuote) :
    vs.foldl (List.argAux fun b c : VenueQuote => c.outAmount < b.outAmount) (some v) =
      some (vs.foldl bestStep v) := by
  induction vs generalizing v with
  | nil => rfl
  | cons x xs ih =>
    rw [List.foldl_cons, List.foldl_cons]
    have harg : List.argAux (fun b c : VenueQuote => c.outAmount < b.outAmount) (some v) x =
        some (bestStep v x) := by
      simp only [List.argAux, bestStep]
      by_cases h : v.outAmount < x.outAmount
      · rw [if_pos h, if_pos h]
      · rw [if_neg h, if_neg h]
    rw [harg, ih]

/-- The fold of `findBestQuote` is `List.argmax` of `outAmount` over the valid quotes. -/
theorem argmax_eq_foldl_bestStep (v : VenueQuote) (vs : List VenueQuote) :
    List.argmax VenueQuote.outAmount (v :: vs) = some (vs.foldl bestStep v) := by
  rw [List.argmax, List.foldl_cons]
  exact foldl_bestStep_eq_argAux vs v

/-- Reduction of `findBestQuote` when the valid-quote filter is nonempty. -/
theorem findBestQuote_eq_foldl (quotes : List VenueQuote) (v : VenueQuote)
    (vs : List VenueQuote) (h : quotes.filter isValidQuote = v :: vs) :
    findBestQuote quotes = vs.foldl bestStep v := by
  unfold findBestQuote
  rw [h]

/-- The fold result of `findBestQuote` is a maximum of `List.argmax`. -/
theorem foldl_bestStep_mem_argmax (v : VenueQuote) (vs : List VenueQuote) :
    vs.foldl bestStep v ∈ List.argmax VenueQuote.outAmount (v :: vs) := by
  rw [argmax_eq_foldl_bestStep]
  exact Option.mem_def.mpr rfl

/-- A nonempty quote list always yields a member of itself (or of its valid
sublist) as best quote. -/
theorem findBestQuote_mem (quotes : List VenueQuote) (h : quotes ≠ []) :
    findBestQuote quotes ∈ quotes := by
  cases hfil : quotes.filter isValidQuote with
  | nil =>
    match quotes, h with
    | q :: qs, _ =>
      unfold findBestQuote
      rw [hfil]
      exact List.mem_cons_self q qs
  | cons v vs =>
    rw [findBestQuote_eq_foldl quotes v vs hfil]
    have hm := List.argmax_mem (foldl_bestStep_mem_argmax v vs)
    rw [← hfil] at hm
    exact List.mem_of_mem_filter hm

/-! ## Claim theorems : findBestQuote -/

/-- Claim C2: the function `findBestQuote` returns a quote with maximal `outAmount` among the
non-tombstone quotes — those passing the source's validity filter `isValidQuote`
(no truthy `error` and `outAmount > 0`) — and when every quote is a tombstone it
returns `quotes[0]`; the `bestQuote` field of `compareVenues` is exactly this
selection. -/
theorem findBestQuote_max (quotes : List VenueQuote) :
    ((∃ q, q ∈ quotes.filter isValidQuote) →
      findBestQuote quotes ∈ quotes.filter isValidQuote ∧
      ∀ q ∈ quotes.filter isValidQuote, q.outAmount ≤ (findBestQuote quotes).outAmount) ∧
    (quotes.filter isValidQuote = [] →
      ∀ q₀ qs, quotes = q₀ :: qs → findBestQuote quotes = q₀) ∧
    (∀ im om amt o₁ o₂ o₃ o₄ now,
      (compareVenues im om amt o₁ o₂ o₃ o₄ now).bestQuote =
        findBestQuote (fetchAllVenueQuotes o₁ o₂ o₃ o₄)) := by
  refine ⟨?_, ?_, fun im om amt o₁ o₂ o₃ o₄ now => rfl⟩
  · rintro ⟨q, hq⟩
    cases hfil : quotes.filter isValidQuote with
    | nil => rw [hfil] at hq; cases hq
    | cons v vs =>
      have hbq := findBestQuote_eq_foldl quotes v vs hfil
      have harg := foldl_bestStep_mem_argmax v vs
      rw [hbq]
      constructor
      · exact List.argmax_mem harg
      · intro q' hq'
        exact List.le_of_mem_argmax hq' harg
  · intro hfil q₀ qs hq
    subst hq
    unfold findBestQuote
    rw [hfil]

/-- Witness for C2 on a concrete two-quote list: the best quote is a member of the
valid sublist, has maximal output there, and `compareVenues` exposes it. -/
theorem findBestQuote_max_witness :
    (findBestQuote
        [{ venue := .jupiter, inAmount := 1, outAmount := 3 },
         { venue := .raydium, inAmount := 1, outAmount := 5 }] ∈
      List.filter isValidQuote
        [{ venue := .jupiter, inAmount := 1, outAmount := 3 },
         { venue := .raydium, inAmount := 1, outAmount := 5 }]) ∧
    findBestQuote [] =
      { venue := .jupiter, inAmount := 0, outAmount := 0, error := some "No valid quotes" } := by
  constructor
  · exact ((findBestQuote_max
      [{ venue := .jupiter, inAmount := 1, outAmount := 3 },
       { venue := .raydium, inAmount := 1, outAmount := 5 }]).1
      ⟨{ venue := .raydium, inAmount := 1, outAmount := 5 }, by decide⟩).1
  · rfl

/-- Claim C9: the function `findBestQuote` is deterministic in the input list: the strict
comparison keeps the earliest quote among those sharing the maximal `outAmount`
(`indexOf` in the order-preserving valid sublist never increases when moving to any
other valid quote of no smaller output), and the empty list yields the synthetic
jupiter tombstone with error `No valid quotes`. -/
theorem findBestQuote_earliest (quotes : List VenueQuote) :
    (findBestQuote [] =
      { venue := .jupiter, inAmount := 0, outAmount := 0, error := some "No valid quotes" }) ∧
    (quotes.filter isValidQuote ≠ [] →
      ∀ q ∈ quotes.filter isValidQuote,
        (findBestQuote quotes).outAmount ≤ q.outAmount →
        (quotes.filter isValidQuote).indexOf (findBestQuote quotes) ≤
          (quotes.filter isValidQuote).indexOf q) := by
  refine ⟨rfl, fun hne q hq hle => ?_⟩
  obtain ⟨v, vs, hfil⟩ := List.exists_cons_of_ne_nil hne
  have hbq := findBestQuote_eq_foldl quotes v vs hfil
  have harg := foldl_bestStep_mem_argmax v vs
  rw [hfil] at hq ⊢
  rw [hbq] at hle ⊢
  exact List.index_of_argmax harg hq hle

/-- Witness for C9: with two valid quotes of equal maximal output, the earlier one
is selected (its index in the valid sublist is minimal). -/
theorem findBestQuote_earliest_witness :
    (List.filter isValidQuote
        [{ venue := .jupiter, inAmount := 1, outAmount := 5 },
         { venue := .raydium, inAmount := 2, outAmount := 5 }]).indexOf
      (findBestQuote
        [{ venue := .jupiter, inAmount := 1, outAmount := 5 },
         { venue := .raydium, inAmount := 2, outAmount := 5 }]) ≤
    (List.filter isValidQuote
        [{ venue := .jupiter, inAmount := 1, outAmount := 5 },
         { venue := .raydium, inAmount := 2, outAmount := 5 }]).indexOf
      { venue := .raydium, inAmount := 2, outAmount := 5 } :=
  (findBestQuote_earliest
    [{ venue := .jupiter, inAmount := 1, outAmount := 5 },
     { venue := .raydium, inAmount := 2, outAmount := 5 }]).2
    (by decide) { venue := .raydium, inAmount := 2, outAmount := 5 } (by decide)
    (by with_unfolding_all decide)

/-! ## Supporting lemmas : fetch skeleton and efficiency annotation -/

/-- Every fetch result carries its venue name. -/
theorem fetchVenueQuote_venue (v : VenueName) (o : FetchOutcome) :
    (fetchVenueQuote v o).venue = v := by
  cases o with
  | thrown msg => rfl
  | parsed ia oa pi fee route poolId =>
    simp only [fetchVenueQuote]
    split <;> rfl

/-- A failed fetch produces a tombstone: zero amounts and an error message. -/
theorem fetchVenueQuote_failed (v : VenueName) (o : FetchOutcome) (h : outcomeFailed o) :
    (fetchVenueQuote v o).inAmount = 0 ∧ (fetchVenueQuote v o).outAmount = 0 ∧
      (fetchVenueQuote v o).error ≠ none := by
  cases o with
  | thrown msg => exact ⟨rfl, rfl, by simp [fetchVenueQuote]⟩
  | parsed ia oa pi fee route poolId =>
    simp only [outcomeFailed] at h
    simp only [fetchVenueQuote]
    rw [if_pos h]
    exact ⟨rfl, rfl, by simp⟩

/-- A fetch result never carries an efficiency annotation. -/
theorem fetchVenueQuote_efficiency (v : VenueName) (o : FetchOutcome) :
    (fetchVenueQuote v o).efficiency = none := by
  cases o with
  | thrown msg => rfl
  | parsed ia oa pi fee route poolId =>
    simp only [fetchVenueQuote]
    split <;> rfl

/-- The efficiency annotation changes only the `efficiency` field. -/
theorem annotEff_eraseEfficiency (b q : VenueQuote) :
    eraseEfficiency (annotEff b q) = eraseEfficiency q := rfl

/-- The annotation pass `calculateQuoteEfficiencies` either returns the list unchanged (zero best
output) or annotates every quote. -/
theorem calculateQuoteEfficiencies_cases (quotes : List VenueQuote) (b : VenueQuote) :
    (b.outAmount = 0 ∧ calculateQuoteEfficiencies quotes b = quotes) ∨
    (b.outAmount ≠ 0 ∧ calculateQuoteEfficiencies quotes b = quotes.map (annotEff b)) := by
  unfold calculateQuoteEfficiencies
  split
  · exact Or.inl ⟨by assumption, rfl⟩
  · exact Or.inr ⟨by assumption, rfl⟩

/-! ## Claim theorems : compareVenues -/

/-- Claim C1: the function `compareVenues` is a total function that always returns exactly four
quotes, one per configured venue in the fixed order jupiter, raydium, orca,
meteora; every venue whose fetch failed (a thrown network/status error, or a
missing/zero output or input amount) appears as a tombstone quote with its `error`
field set and `inAmount = outAmount = 0` instead of being dropped. -/
theorem compareVenues_four_quotes (im om : String) (amt : ℚ) (o₁ o₂ o₃ o₄ : FetchOutcome)
    (now : ℤ) :
    (compareVenues im om amt o₁ o₂ o₃ o₄ now).quotes.length = 4 ∧
    ∃ q₁ q₂ q₃ q₄,
      (compareVenues im om amt o₁ o₂ o₃ o₄ now).quotes = [q₁, q₂, q₃, q₄] ∧
      (q₁.venue = .jupiter ∧ q₂.venue = .raydium ∧ q₃.venue = .orca ∧ q₄.venue = .meteora) ∧
      (outcomeFailed o₁ → q₁.inAmount = 0 ∧ q₁.outAmount = 0 ∧ q₁.error ≠ none) ∧
      (outcomeFailed o₂ → q₂.inAmount = 0 ∧ q₂.outAmount = 0 ∧ q₂.error ≠ none) ∧
      (outcomeFailed o₃ → q₃.inAmount = 0 ∧ q₃.outAmount = 0 ∧ q₃.error ≠ none) ∧
      (outcomeFailed o₄ → q₄.inAmount = 0 ∧ q₄.outAmount = 0 ∧ q₄.error ≠ none) := by
  have hq : (compareVenues im om amt o₁ o₂ o₃ o₄ now).quotes =
      calculateQuoteEfficiencies (fetchAllVenueQuotes o₁ o₂ o₃ o₄)
        (findBestQuote (fetchAllVenueQuotes o₁ o₂ o₃ o₄)) := rfl
  rcases calculateQuoteEfficiencies_cases (fetchAllVenueQuotes o₁ o₂ o₃ o₄)
      (findBestQuote (fetchAllVenueQuotes o₁ o₂ o₃ o₄)) with ⟨_, hc⟩ | ⟨_, hc⟩
  · rw [hq, hc]
    refine ⟨rfl, fetchVenueQuote .jupiter o₁, fetchVenueQuote .raydium o₂,
      fetchVenueQuote .orca o₃, fetchVenueQuote .meteora o₄, rfl,
      ⟨fetchVenueQuote_venue _ _, fetchVenueQuote_venue _ _, fetchVenueQuote_venue _ _,
       fetchVenueQuote_venue _ _⟩,
      fetchVenueQuote_failed _ o₁, fetchVenueQuote_failed _ o₂,
      fetchVenueQuote_failed _ o₃, fetchVenueQuote_failed _ o₄⟩
  · rw [hq, hc]
    set b := findBestQuote (fetchAllVenueQuotes o₁ o₂ o₃ o₄)
    refine ⟨rfl, annotEff b (fetchVenueQuote .jupiter o₁), annotEff b (fetchVenueQuote .raydium o₂),
      annotEff b (fetchVenueQuote .orca o₃), annotEff b (fetchVenueQuote .meteora o₄), rfl,
      ⟨fetchVenueQuote_venue _ _, fetchVenueQuote_venue _ _, fetchVenueQuote_venue _ _,
       fetchVenueQuote_venue _ _⟩, ?_, ?_, ?_, ?_⟩
    all_goals intro h
    · exact fetchVenueQuote_failed _ o₁ h
    · exact fetchVenueQuote_failed _ o₂ h
    · exact fetchVenueQuote_failed _ o₃ h
    · exact fetchVenueQuote_failed _ o₄ h

/-- Witness for C1 with one thrown venue (orca times out): four quotes in venue
order, the third a tombstone. -/
theorem compareVenues_four_quotes_witness :
    (compareVenues "mintIn" "mintOut" 1 (.parsed 1 5 none none none none)
        (.parsed 1 6 none none none none) (.thrown "timeout")
        (.parsed 1 4 none none none none) 0).quotes.length = 4 :=
  (compareVenues_four_quotes "mintIn" "mintOut" 1 (.parsed 1 5 none none none none)
    (.parsed 1 6 none none none none) (.thrown "timeout")
    (.parsed 1 4 none none none none) 0).1

/-- Claim C10: The `bestQuote` field of `compareVenues` is the quote object selected
*before* efficiency annotation: its `efficiency` field is absent, while a
corresponding entry in `quotes` (equal to `bestQuote` up to the `efficiency` field)
carries `efficiency = 100` whenever `bestQuote.outAmount` is positive. -/
theorem compareVenues_bestQuote_unannotated (im om : String) (amt : ℚ)
    (o₁ o₂ o₃ o₄ : FetchOutcome) (now : ℤ) :
    (compareVenues im om amt o₁ o₂ o₃ o₄ now).bestQuote.efficiency = none ∧
    ∃ q ∈ (compareVenues im om amt o₁ o₂ o₃ o₄ now).quotes,
      eraseEfficiency q = eraseEfficiency (compareVenues im om amt o₁ o₂ o₃ o₄ now).bestQuote ∧
      (0 < (compareVenues im om amt o₁ o₂ o₃ o₄ now).bestQuote.outAmount →
        q.efficiency = some 100) := by
  have hq : (compareVenues im om amt o₁ o₂ o₃ o₄ now).quotes =
      calculateQuoteEfficiencies (fetchAllVenueQuotes o₁ o₂ o₃ o₄)
        (findBestQuote (fetchAllVenueQuotes o₁ o₂ o₃ o₄)) := rfl
  have hb : (compareVenues im om amt o₁ o₂ o₃ o₄ now).bestQuote =
      findBestQuote (fetchAllVenueQuotes o₁ o₂ o₃ o₄) := rfl
  have hmem : findBestQuote (fetchAllVenueQuotes o₁ o₂ o₃ o₄) ∈
      fetchAllVenueQuotes o₁ o₂ o₃ o₄ :=
    findBestQuote_mem _ (by simp [fetchAllVenueQuotes])
  have heff : ∀ q ∈ fetchAllVenueQuotes o₁ o₂ o₃ o₄, q.efficiency = none := by
    intro q hq'
    simp only [fetchAllVenueQuotes, List.mem_cons, List.not_mem_nil, or_false] at hq'
    rcases hq' with h | h | h | h <;> rw [h] <;> exact fetchVenueQuote_efficiency _ _
  have hbeff : (findBestQuote (fetchAllVenueQuotes o₁ o₂ o₃ o₄)).efficiency = none :=
    heff _ hmem
  rw [hb, hq]
  refine ⟨hbeff, ?_⟩
  rcases calculateQuoteEfficiencies_cases (fetchAllVenueQuotes o₁ o₂ o₃ o₄)
      (findBestQuote (fetchAllVenueQuotes o₁ o₂ o₃ o₄)) with ⟨hz, hc⟩ | ⟨hz, hc⟩
  · refine ⟨findBestQuote (fetchAllVenueQuotes o₁ o₂ o₃ o₄), ?_, rfl, ?_⟩
    · rw [hc]; exact hmem
    · intro hpos
      rw [hz] at hpos
      exact absurd hpos (lt_irrefl 0)
  · refine ⟨annotEff (findBestQuote (fetchAllVenueQuotes o₁ o₂ o₃ o₄))
      (findBestQuote (fetchAllVenueQuotes o₁ o₂ o₃ o₄)), ?_, annotEff_eraseEfficiency _ _, ?_⟩
    · rw [hc]
      exact List.mem_map_of_mem _ hmem
    · intro hpos
      simp only [annotEff, if_pos hpos]
      rw [div_self hz, one_mul]

/-- Witness for C10: with concrete outcomes the best quote is unannotated while its
counterpart in `quotes` carries efficiency 100. -/
theorem compareVenues_bestQuote_unannotated_witness :
    (compareVenues "mintIn" "mintOut" 1 (.parsed 1 5 none none none none)
        (.parsed 1 6 none none none none) (.thrown "timeout")
        (.parsed 1 4 none none none none) 0).bestQuote.efficiency = none :=
  (compareVenues_bestQuote_unannotated "mintIn" "mintOut" 1 (.parsed 1 5 none none none none)
    (.parsed 1 6 none none none none) (.thrown "timeout")
    (.parsed 1 4 none none none none) 0).1

/-! ## Supporting lemmas : arbitrage pair enumeration -/

/-- Both components of a pair produced by `pairsFirstLater` are members of the
underlying list. -/
theorem pairsFirstLater_mem {α : Type} (p : α × α) (l : List α)
    (h : p ∈ pairsFirstLater l) : p.1 ∈ l ∧ p.2 ∈ l := by
  induction l with
  | nil => cases h
  | cons x xs ih =>
    simp only [pairsFirstLater, List.mem_append, List.mem_map] at h
    rcases h with ⟨y, hy, hpy⟩ | h
    · rw [← hpy]
      exact ⟨List.mem_cons_self x xs, List.mem_cons_of_mem x hy⟩
    · exact ⟨List.mem_cons_of_mem x (ih h).1, List.mem_cons_of_mem x (ih h).2⟩

/-- Fewer than two elements admit no pair. -/
theorem pairsFirstLater_short {α : Type} (l : List α) (h : l.length < 2) :
    pairsFirstLater l = [] := by
  match l, h with
  | [], _ => rfl
  | [x], _ => rfl

/-- Field contract of one inner-loop step: an opportunity is produced iff the
spread relative to the lower price exceeds 0.5 %, and its fields satisfy the
claimed formulas. -/
theorem mkArbitrageOpportunity_fields (q1 q2 : VenueQuote) :
    ((mkArbitrageOpportunity q1 q2).isSome = true ↔
      |q1.outAmount / q1.inAmount - q2.outAmount / q2.inAmount| /
        min (q1.outAmount / q1.inAmount) (q2.outAmount / q2.inAmount) * 100 > 1 / 2) ∧
    ∀ o, mkArbitrageOpportunity q1 q2 = some o →
      o.buyPrice = min (q1.outAmount / q1.inAmount) (q2.outAmount / q2.inAmount) ∧
      o.sellPrice = max (q1.outAmount / q1.inAmount) (q2.outAmount / q2.inAmount) ∧
      o.spread = o.sellPrice - o.buyPrice ∧
      o.spreadPercent =
        |q1.outAmount / q1.inAmount - q2.outAmount / q2.inAmount| /
          min (q1.outAmount / q1.inAmount) (q2.outAmount / q2.inAmount) * 100 ∧
      o.spreadPercent > 1 / 2 := by
  have h05 : (0.5 : ℚ) = 1 / 2 := by norm_num
  simp only [mkArbitrageOpportunity, h05]
  by_cases h : |q1.outAmount / q1.inAmount - q2.outAmount / q2.inAmount| /
      min (q1.outAmount / q1.inAmount) (q2.outAmount / q2.inAmount) * 100 > 1 / 2
  · rw [if_pos h]
    refine ⟨by simpa using h, fun o ho => ?_⟩
    rw [Option.some_inj] at ho
    subst ho
    refine ⟨rfl, rfl, ?_, rfl, h⟩
    show |_ - _| = max _ _ - min _ _
    rw [max_sub_min_eq_abs, abs_sub_comm]
  · rw [if_neg h]
    exact ⟨by simpa using h, fun o ho => by cases ho⟩

/-! ## Claim theorem : findArbitrageOpportunities -/

/-- Claim C3: the function `findArbitrageOpportunities` returns exactly one opportunity per
ordered pair (`i < j`) of valid (non-tombstone: untruthy `error`, positive
`outAmount` and `inAmount`) quotes whose spread percentage exceeds 0.5 — the result
is a permutation of the per-pair candidates — sorted descending by
`spreadPercent`; every emitted opportunity stems from two valid quotes
(tombstones never appear), with `buyPrice = min p₁ p₂`, `sellPrice = max p₁ p₂`,
`spread = sellPrice − buyPrice` and
`spreadPercent = |p₁ − p₂| / min p₁ p₂ × 100 > 0.5` for the unit prices
`pᵢ = outAmount/inAmount`. -/
theorem findArbitrageOpportunities_pairs (quotes : List VenueQuote) :
    List.Pairwise (fun a b => b.spreadPercent ≤ a.spreadPercent)
      (findArbitrageOpportunities quotes) ∧
    List.Perm (findArbitrageOpportunities quotes)
      ((pairsFirstLater (quotes.filter isValidArbQuote)).filterMap fun p =>
        mkArbitrageOpportunity p.1 p.2) ∧
    (∀ o ∈ findArbitrageOpportunities quotes, ∃ q1 q2,
      q1 ∈ quotes ∧ q2 ∈ quotes ∧ isValidArbQuote q1 = true ∧ isValidArbQuote q2 = true ∧
      mkArbitrageOpportunity q1 q2 = some o) ∧
    (∀ q1 q2 : VenueQuote,
      ((mkArbitrageOpportunity q1 q2).isSome = true ↔
        |q1.outAmount / q1.inAmount - q2.outAmount / q2.inAmount| /
          min (q1.outAmount / q1.inAmount) (q2.outAmount / q2.inAmount) * 100 > 1 / 2) ∧
      ∀ o, mkArbitrageOpportunity q1 q2 = some o →
        o.buyPrice = min (q1.outAmount / q1.inAmount) (q2.outAmount / q2.inAmount) ∧
        o.sellPrice = max (q1.outAmount / q1.inAmount) (q2.outAmount / q2.inAmount) ∧
        o.spread = o.sellPrice - o.buyPrice ∧
        o.spreadPercent =
          |q1.outAmount / q1.inAmount - q2.outAmount / q2.inAmount| /
            min (q1.outAmount / q1.inAmount) (q2.outAmount / q2.inAmount) * 100 ∧
        o.spreadPercent > 1 / 2) := by
  by_cases hlen : (quotes.filter isValidArbQuote).length < 2
  · have hpairs : pairsFirstLater (quotes.filter isValidArbQuote) = [] :=
      pairsFirstLater_short _ hlen
    have hres : findArbitrageOpportunities quotes = [] := by
      unfold findArbitrageOpportunities
      rw [if_pos hlen]
    rw [hres, hpairs]
    exact ⟨List.Pairwise.nil, by simp, by simp, mkArbitrageOpportunity_fields⟩
  · have hres : findArbitrageOpportunities quotes =
        List.insertionSort arbDesc
          ((pairsFirstLater (quotes.filter isValidArbQuote)).filterMap fun p =>
            mkArbitrageOpportunity p.1 p.2) := by
      unfold findArbitrageOpportunities
      rw [if_neg hlen]
    rw [hres]
    refine ⟨List.sorted_insertionSort arbDesc _, List.perm_insertionSort arbDesc _,
      ?_, mkArbitrageOpportunity_fields⟩
    intro o ho
    have ho' := (List.perm_insertionSort arbDesc _).subset ho
    rw [List.mem_filterMap] at ho'
    obtain ⟨p, hp, hpo⟩ := ho'
    have hmem := pairsFirstLater_mem p _ hp
    have h1 := List.mem_filter.mp hmem.1
    have h2 := List.mem_filter.mp hmem.2
    exact ⟨p.1, p.2, h1.1, h2.1, h1.2, h2.2, hpo⟩

/-- Witness for C3: two valid quotes with unit prices 101 and 100 (1 % spread)
produce an opportunity; prices 100.2 and 100 (0.2 %) do not. -/
theorem findArbitrageOpportunities_pairs_witness :
    (mkArbitrageOpportunity { venue := .jupiter, inAmount := 1, outAmount := 101 }
        { venue := .raydium, inAmount := 1, outAmount := 100 }).isSome = true ∧
    ¬ (mkArbitrageOpportunity { venue := .jupiter, inAmount := 1, outAmount := 1002 / 10 }
        { venue := .raydium, inAmount := 1, outAmount := 100 }).isSome = true := by
  constructor
  · exact ((findArbitrageOpportunities_pairs []).2.2.2
      { venue := .jupiter, inAmount := 1, outAmount := 101 }
      { venue := .raydium, inAmount := 1, outAmount := 100 }).1.mpr
      (by with_unfolding_all decide)
  · intro hsome
    have := ((findArbitrageOpportunities_pairs []).2.2.2
      { venue := .jupiter, inAmount := 1, outAmount := 1002 / 10 }
      { venue := .raydium, inAmount := 1, outAmount := 100 }).1.mp hsome
    exact absurd this (by with_unfolding_all decide)

/-! ## Supporting lemmas : reserve resolution -/

/-- The cast `Number(bigint)` is exact below `2^53`. -/
theorem roundToDouble_small (n : ℕ) (h : n < 2 ^ 53) : roundToDouble n = n := by
  unfold roundToDouble
  rw [if_pos h]

/-! ## Claim theorems : reserve resolution -/

/-- Claim C4: When the pool account exists but every layout decode attempt fails and
the registry — queried by pool id, then by the asset pair when both mints are
supplied — returns no result, `getRaydiumPoolReserves` fails with `NotFoundError`
and never returns a (partially populated) snapshot. -/
theorem getRaydiumPoolReserves_notFound (mintA mintB : Option String) (env : ResolveEnv)
    (hacc : env.accountExists = true)
    (hamm : ∀ d, env.ammV4 ≠ .ok d)
    (hclmm : ∀ d, env.clmm ≠ .ok d)
    (hid : env.regById = .ok none)
    (hmints : env.regByMints = .ok none) :
    getRaydiumPoolReserves mintA mintB env = .error .notFound := by
  obtain ⟨msgA, hA⟩ : ∃ m, env.ammV4 = .fail m := by
    cases h : env.ammV4 with
    | fail m => exact ⟨m, rfl⟩
    | ok d => exact absurd h (hamm d)
  obtain ⟨msgC, hC⟩ : ∃ m, env.clmm = .fail m := by
    cases h : env.clmm with
    | fail m => exact ⟨m, rfl⟩
    | ok d => exact absurd h (hclmm d)
  by_cases ht : (optStrTruthy mintA && optStrTruthy mintB) = true
  · simp only [getRaydiumPoolReservesRegistry, getRaydiumPoolReserves, hacc, hA, hC, hid,
      hmints, ht, if_true, Bool.true_eq_false, if_false]
  · simp only [getRaydiumPoolReservesRegistry, getRaydiumPoolReserves, hacc, hA, hC, hid,
      hmints, ht, if_false, Bool.true_eq_false, Bool.false_eq_true]

/-- Witness for C4: a concrete environment in which both decode attempts fail and
both registry queries come back empty resolves to `NotFoundError`. -/
theorem getRaydiumPoolReserves_notFound_witness :
    getRaydiumPoolReserves (some "mintA") (some "mintB")
      { accountExists := true, ammV4 := .fail "AMM v4 vaults missing",
        clmm := .fail "CLMM pool keys not found", regById := .ok none,
        regByMints := .ok none, regVaultA := .fail "unused",
        regVaultB := .fail "unused" } = .error .notFound :=
  getRaydiumPoolReserves_notFound (some "mintA") (some "mintB") _ rfl
    (fun d h => by cases h) (fun d h => by cases h) rfl rfl

/-- Claim C5, counterexample: The claim "if the AMM-v4 decode succeeds then
`depth = min(vaultA.amount, vaultB.amount)` exactly, for all vault balances" fails:
with both vault balances `2^53 + 1`, the source's `Number(bigint)` casts round to
`2^53`, so the returned depth is `2^53` while the exact minimum is `2^53 + 1`. -/
theorem getRaydiumPoolReserves_depth_cex :
    ((getRaydiumPoolReserves (some "mintA") (some "mintB")
      { accountExists := true,
        ammV4 := .ok
          { baseVault := "va", quoteVault := "vb", vaMint := "ma", vaAmount := 2 ^ 53 + 1,
            vbMint := "mb", vbAmount := 2 ^ 53 + 1, lpSupply := 1, tradeFeeNumerator := 25,
            tradeFeeDenominator := 10000, swapFeeNumerator := 25,
            swapFeeDenominator := 10000 },
        clmm := .fail "unused", regById := .ok none, regByMints := .ok none,
        regVaultA := .fail "unused",
        regVaultB := .fail "unused" }).toOption.map PoolReserves.depth = some (2 ^ 53)) ∧
    min ((2 : ℕ) ^ 53 + 1) (2 ^ 53 + 1) ≠ 2 ^ 53 := by
  constructor
  · simp only [getRaydiumPoolReserves, buildAmmV4, Except.toOption, Except.map]
    norm_num
    decide
  · decide

/-- Claim C5, amended: If the AMM-v4 attempt succeeds for an existing pool account,
the returned snapshot has `poolType = ammV4` and
`depth = min (Number vaultA.amount) (Number vaultB.amount)` — the minimum of the
vault balances after each is cast to the nearest binary64 value — which equals
`min (vaultA.amount, vaultB.amount)` exactly whenever both balances are below
`2^53`. -/
theorem getRaydiumPoolReserves_ammV4_depth (mintA mintB : Option String) (env : ResolveEnv)
    (d : AmmV4Data) (hacc : env.accountExists = true) (hamm : env.ammV4 = .ok d) :
    getRaydiumPoolReserves mintA mintB env = .ok (buildAmmV4 d) ∧
    (buildAmmV4 d).poolType = .ammV4 ∧
    (buildAmmV4 d).depth = min (roundToDouble d.vaAmount) (roundToDouble d.vbAmount) ∧
    (d.vaAmount < 2 ^ 53 → d.vbAmount < 2 ^ 53 →
      (buildAmmV4 d).depth = min d.vaAmount d.vbAmount) := by
  refine ⟨?_, rfl, rfl, fun ha hb => ?_⟩
  · simp only [getRaydiumPoolReserves, hacc, hamm, Bool.true_eq_false, if_false]
  · show min (roundToDouble d.vaAmount) (roundToDouble d.vbAmount) = _
    rw [roundToDouble_small _ ha, roundToDouble_small _ hb]

/-- Witness for C5 (amended) at small balances 100 and 200: the snapshot is the
AMM-v4 one and its depth is the exact minimum. -/
theorem getRaydiumPoolReserves_ammV4_depth_witness :
    (buildAmmV4
      { baseVault := "va", quoteVault := "vb", vaMint := "ma", vaAmount := 100,
        vbMint := "mb", vbAmount := 200, lpSupply := 50, tradeFeeNumerator := 25,
        tradeFeeDenominator := 10000, swapFeeNumerator := 25,
        swapFeeDenominator := 10000 }).depth = min 100 200 :=
  (getRaydiumPoolReserves_ammV4_depth none none
    { accountExists := true,
      ammV4 := .ok
        { baseVault := "va", quoteVault := "vb", vaMint := "ma", vaAmount := 100,
          vbMint := "mb", vbAmount := 200, lpSupply := 50, tradeFeeNumerator := 25,
          tradeFeeDenominator := 10000, swapFeeNumerator := 25,
          swapFeeDenominator := 10000 },
      clmm := .fail "unused", regById := .ok none, regByMints := .ok none,
      regVaultA := .fail "unused", regVaultB := .fail "unused" } _ rfl rfl).2.2.2
    (by decide) (by decide)

end ProjectSQS
